import Mathlib

/-!
Verification development for the dungeon model module of the
dungeoncrawler-api repository.  The definitions below are a shallow
embedding of the TypeScript classes DungeonValidator and DungeonHelpers
and of the data interfaces they operate on.  JavaScript numbers that the
code only ever treats as integers are modelled as Int; optional fields
become Option; the untyped legacy-import input becomes an explicit
inductive shape.  Template-literal interpolation of numbers is modelled
by an executable decimal rendering function.
-/

/-- Difficulty level for dungeons. -/
inductive DifficultyLevel where
  | easy | medium | hard | expert
deriving DecidableEq

/-- Cardinal directions for room connections. -/
inductive Direction where
  | north | south | east | west
deriving DecidableEq

/-- Room types in a dungeon. -/
inductive RoomType where
  | entrance | boss | treasure | puzzle | combat | rest | trap | empty
deriving DecidableEq

/-- Secret categories. -/
inductive SecretType where
  | hiddenRoom | treasure | passage | lore
deriving DecidableEq

/-- Serialization of a direction, as it appears inside template literals. -/
def directionStr : Direction → String
  | .north => "north"
  | .south => "south"
  | .east => "east"
  | .west => "west"

/-- Monster stats. -/
structure MonsterStats where
  health : Int
  attack : Int
  defense : Int
  speed : Int
deriving DecidableEq

/-- Monster definition. -/
structure Monster where
  id : String
  name : String
  type : String
  stats : MonsterStats
  level : Int
  description : Option String
  loot : Option (List String)
deriving DecidableEq

/-- Puzzle definition. -/
structure Puzzle where
  id : String
  type : String
  difficulty : DifficultyLevel
  description : String
  solution : Option String
  reward : Option String
deriving DecidableEq

/-- Story event. -/
structure StoryEvent where
  id : String
  title : String
  description : String
  choices : Option (List String)
  consequences : Option (List String)
deriving DecidableEq

/-- Lore entry of the internal model. -/
structure Lore where
  id : String
  title : String
  content : String
  discovered : Option Bool
deriving DecidableEq

/-- Secret definition. -/
structure Secret where
  id : String
  type : SecretType
  description : String
  reward : Option String
deriving DecidableEq

/-- Room coordinates; z is optional for multi-level dungeons. -/
structure Coordinates where
  x : Int
  y : Int
  z : Option Int
deriving DecidableEq

/-- Room connection to another room. -/
structure RoomConnection where
  direction : Direction
  targetRoomId : String
  locked : Option Bool
  hidden : Option Bool
deriving DecidableEq

/-- Room definition. -/
structure Room where
  id : String
  type : RoomType
  coordinates : Coordinates
  description : String
  connections : List RoomConnection
  monsters : Option (List Monster)
  puzzle : Option Puzzle
  story : Option StoryEvent
  lore : Option (List Lore)
  secrets : Option (List Secret)
  visited : Option Bool
  cleared : Option Bool
deriving DecidableEq

/-- Dungeon floor definition. -/
structure DungeonFloor where
  floorNumber : Int
  name : String
  description : String
  rooms : List Room
deriving DecidableEq

/-- Dungeon size record. -/
structure DungeonSize where
  width : Int
  height : Int
  depth : Option Int
deriving DecidableEq

/-- Complete dungeon definition.  The flat rooms list is the legacy
container; floors is the multi-floor container. -/
structure Dungeon where
  id : String
  name : String
  difficulty : DifficultyLevel
  level : Int
  size : DungeonSize
  description : String
  rooms : List Room
  floors : Option (List DungeonFloor)
  createdAt : Option String
  updatedAt : Option String
deriving DecidableEq

/-- Validation error: field path plus human readable message. -/
structure ValidationError where
  field : String
  message : String
deriving DecidableEq

/-- Validation result. -/
structure ValidationResult where
  valid : Bool
  errors : List ValidationError
deriving DecidableEq

/-!
Decimal rendering of numbers.  The TypeScript code interpolates numbers
into template literals; the runtime renders them in decimal.  The fuel
based digit loop below mirrors the standard decimal rendering and is
structural, so concrete instances evaluate inside the kernel.
-/

/-- Fuel-driven digit accumulator: peels the low digit each step. -/
def natDigitsCore : Nat → Nat → List Char → List Char
  | 0, _, ds => ds
  | fuel + 1, n, ds =>
    let d := Nat.digitChar (n % 10)
    let m := n / 10
    if m = 0 then d :: ds else natDigitsCore fuel m (d :: ds)

/-- Decimal rendering of a natural number. -/
def natStr (n : Nat) : String := ⟨natDigitsCore (n + 1) n []⟩

/-- Decimal rendering of an integer, as a JavaScript template literal
renders it. -/
def intStr : Int → String
  | .ofNat m => natStr m
  | .negSucc m => "-" ++ natStr (m + 1)

/-!  The validator, translated from DungeonValidator in the source.  -/

/-- Opposite direction table used by the reciprocity check. -/
def getOppositeDirection : Direction → Direction
  | .north => .south
  | .south => .north
  | .east => .west
  | .west => .east

/-- Coordinate key of a room: x, y and z-or-0, as the string key built by
the duplicate-coordinate check.  Distinctness of the triple coincides with
distinctness of the rendered key. -/
def coordKey (r : Room) : Int × Int × Int :=
  (r.coordinates.x, r.coordinates.y, r.coordinates.z.getD 0)

/-- Error pushed when no room container holds any room. -/
def noRoomsError : ValidationError :=
  ⟨"rooms", "Dungeon must have at least one floor with rooms"⟩

/-- Error pushed when no entrance room exists. -/
def entranceError : ValidationError :=
  ⟨"rooms", "Dungeon must have at least one entrance room"⟩

/-- Error pushed when no boss room exists. -/
def bossError : ValidationError :=
  ⟨"rooms", "Dungeon must have at least one boss room"⟩

/-- Error pushed when size.depth disagrees with the floor count. -/
def depthError (dep : Int) (numFloors : Nat) : ValidationError :=
  ⟨"size.depth",
   "Dungeon depth (" ++ intStr dep ++ ") should match number of floors ("
     ++ natStr numFloors ++ ")"⟩

/-- Error pushed on a repeated coordinate key. -/
def coordError (r : Room) : ValidationError :=
  ⟨"room." ++ r.id ++ ".coordinates",
   "Duplicate coordinates found at (" ++ intStr r.coordinates.x ++ ", "
     ++ intStr r.coordinates.y ++ ", " ++ intStr (r.coordinates.z.getD 0) ++ ")"⟩

/-- Error pushed when a connection target does not resolve. -/
def connMissingError (roomId targetId : String) : ValidationError :=
  ⟨"room." ++ roomId ++ ".connections",
   "Connection to non-existent room: " ++ targetId⟩

/-- Error pushed when a connection has no reciprocal edge. -/
def recipError (roomId targetId : String) (opp : Direction) : ValidationError :=
  ⟨"room." ++ roomId ++ ".connections",
   "Missing reciprocal connection from room " ++ targetId ++ " ("
     ++ directionStr opp ++ ")"⟩

/-- Error pushed when a monster level leaves the dungeon-level window. -/
def monsterLevelError (roomId : String) (m : Monster) (dungeonLevel : Int) :
    ValidationError :=
  ⟨"room." ++ roomId ++ ".monster." ++ m.id ++ ".level",
   "Monster level " ++ intStr m.level ++ " is not appropriate for dungeon level "
     ++ intStr dungeonLevel⟩

/-- Entrance presence check: filters rooms typed entrance and reports when
none exist. -/
def entranceErrors (allRooms : List Room) : List ValidationError :=
  if (allRooms.filter (fun r => decide (r.type = RoomType.entrance))).length = 0 then
    [entranceError]
  else []

/-- Boss presence check. -/
def bossErrors (allRooms : List Room) : List ValidationError :=
  if (allRooms.filter (fun r => decide (r.type = RoomType.boss))).length = 0 then
    [bossError]
  else []

/-- Duplicate-coordinate scan: walks the rooms keeping the set of seen
keys, reporting every room whose key was already seen. -/
def coordErrorsAux : List (Int × Int × Int) → List Room → List ValidationError
  | _, [] => []
  | seen, r :: rest =>
    (if coordKey r ∈ seen then [coordError r] else [])
      ++ coordErrorsAux (coordKey r :: seen) rest

/-- Duplicate-coordinate check over the whole effective room set. -/
def coordErrors (allRooms : List Room) : List ValidationError :=
  coordErrorsAux [] allRooms

/-- Lookup in the room map built from room ids.  The JavaScript Map
constructor keeps the last entry for a repeated key, hence the
left fold. -/
def roomLookup (allRooms : List Room) (rid : String) : Option Room :=
  allRooms.foldl (fun acc r => if r.id = rid then some r else acc) none

/-- Errors contributed by one connection: target existence, then the
reciprocal-edge requirement. -/
def connErrsForConn (allRooms : List Room) (room : Room)
    (conn : RoomConnection) : List ValidationError :=
  match roomLookup allRooms conn.targetRoomId with
  | none => [connMissingError room.id conn.targetRoomId]
  | some targetRoom =>
    let opp := getOppositeDirection conn.direction
    match targetRoom.connections.find?
        (fun c => decide (c.direction = opp ∧ c.targetRoomId = room.id)) with
    | some _ => []
    | none => [recipError room.id conn.targetRoomId opp]

/-- Connection checks over every connection of every room, in order. -/
def connectionErrors (allRooms : List Room) : List ValidationError :=
  (allRooms.map (fun room =>
    (room.connections.map (connErrsForConn allRooms room)).flatten)).flatten

/-- Monster-level errors of one room. -/
def monsterErrsForRoom (dungeonLevel : Int) (room : Room) : List ValidationError :=
  match room.monsters with
  | none => []
  | some ms =>
    (ms.map (fun m =>
      if m.level < dungeonLevel - 2 ∨ m.level > dungeonLevel + 2 then
        [monsterLevelError room.id m dungeonLevel]
      else [])).flatten

/-- Monster-level check over the whole effective room set. -/
def monsterLevelErrors (dungeonLevel : Int) (allRooms : List Room) :
    List ValidationError :=
  (allRooms.map (monsterErrsForRoom dungeonLevel)).flatten

/-- Depth consistency check, run only in the multi-floor branch.  A depth
of zero is falsy in JavaScript and is therefore not reported. -/
def depthErrors (d : Dungeon) (fs : List DungeonFloor) : List ValidationError :=
  match d.size.depth with
  | some dep =>
    if dep ≠ 0 ∧ dep ≠ (fs.length : Int) then [depthError dep fs.length] else []
  | none => []

/-- The checks a nonempty effective room set goes through, in source
order: entrance, boss, duplicate coordinates, connections, monster
levels. -/
def mainChecks (d : Dungeon) (allRooms : List Room) : List ValidationError :=
  entranceErrors allRooms ++ bossErrors allRooms ++ coordErrors allRooms
    ++ connectionErrors allRooms ++ monsterLevelErrors d.level allRooms

/-- The effective room set: the concatenation of every floor when the
floors list is present and nonempty, otherwise the flat rooms list.
Mirrors getAllRooms in the source. -/
def effectiveRooms (d : Dungeon) : List Room :=
  let fs := d.floors.getD []
  if 0 < fs.length then (fs.map DungeonFloor.rooms).flatten else d.rooms

/-- validateDungeon: resolves the effective room set, short-circuits only
when both containers are empty, otherwise accumulates every check into a
single error list and reports validity as emptiness of that list. -/
def validateDungeon (d : Dungeon) : ValidationResult :=
  let fs := d.floors.getD []
  if 0 < fs.length then
    let allRooms := (fs.map DungeonFloor.rooms).flatten
    let errors := depthErrors d fs ++ mainChecks d allRooms
    { valid := decide (errors.length = 0), errors := errors }
  else if 0 < d.rooms.length then
    let errors := mainChecks d d.rooms
    { valid := decide (errors.length = 0), errors := errors }
  else
    { valid := false, errors := [noRoomsError] }

/-- State-passing form of validateDungeon.  The source function reads the
dungeon and writes only its local error array, so the dungeon state at
return is exactly the argument. -/
def validateDungeonSt (d : Dungeon) : ValidationResult × Dungeon :=
  (validateDungeon d, d)

/-!
The legacy importer, translated from DungeonHelpers.convertLegacyFormat
and its helpers.  The untyped parsed-JSON argument is modelled by an
explicit shape: the top level either lacks a usable dungeons list (the
field is missing or not an array) or carries a list of legacy dungeon
records whose fields are optional.  Falsy-or-default field access
(value || fallback) is modelled by strOr and numOr, which treat the
empty string and zero as JavaScript does.  The nondeterministic id
generator (timestamp plus random base-36 tail) is modelled by a counter
threaded through the conversion; each call yields a hyphen-joined,
pairwise-distinct string, which is what the surrounding code relies on.
-/

/-- Legacy monster record (the API monster shape). -/
structure LegacyMonster where
  name : Option String
  level : Option Int
  maxHealth : Option Int
  damage : Option Int
  defense : Option Int
  agility : Option Int
  specialAbility : Option String
  goldValue : Option Int
deriving DecidableEq

/-- Legacy puzzle record. -/
structure LegacyPuzzle where
  type : Option String
  description : Option String
  question : Option String
  answer : Option String
  rewardGold : Option Int
deriving DecidableEq

/-- Outcome of one legacy story choice. -/
structure LegacyOutcome where
  description : Option String
deriving DecidableEq

/-- One legacy story choice. -/
structure LegacyChoice where
  text : Option String
  outcome : Option LegacyOutcome
deriving DecidableEq

/-- Legacy story event record. -/
structure LegacyStoryEvent where
  title : Option String
  description : Option String
  choices : Option (List LegacyChoice)
deriving DecidableEq

/-- Legacy secret record. -/
structure LegacySecret where
  description : Option String
  rewardGold : Option Int
deriving DecidableEq

/-- Legacy lore record. -/
structure LegacyLoreEntry where
  title : Option String
  text : Option String
deriving DecidableEq

/-- Legacy room record: numeric id, flat x and y, connections as bare
directions. -/
structure LegacyRoom where
  id : Int
  type : String
  x : Option Int
  y : Option Int
  description : Option String
  connections : Option (List Direction)
  monsters : Option (List LegacyMonster)
  puzzle : Option LegacyPuzzle
  storyEvent : Option LegacyStoryEvent
  loreEntry : Option LegacyLoreEntry
  secret : Option LegacySecret
deriving DecidableEq

/-- Legacy dungeon record. -/
structure LegacyDungeon where
  level : Option Int
  size : Option Int
  rooms : Option (List LegacyRoom)
deriving DecidableEq

/-- Shape of the untyped import argument: the dungeons field is missing
(or otherwise falsy), present but not an array, or an array of legacy
records. -/
inductive LegacyInput where
  | noDungeons
  | dungeonsNotArray
  | dungeonsArr (ds : List LegacyDungeon)
deriving DecidableEq

/-- JavaScript string defaulting: value || fallback, where the empty
string is falsy. -/
def strOr (a : Option String) (b : String) : String :=
  match a with
  | some s => if s = "" then b else s
  | none => b

/-- JavaScript numeric defaulting: value || fallback, where zero is
falsy. -/
def numOr (a : Option Int) (b : Int) : Int :=
  match a with
  | some v => if v = 0 then b else v
  | none => b

/-- Reward text built from a truthy gold value, else nothing. -/
def goldReward (g : Option Int) : Option String :=
  match g with
  | some v => if v ≠ 0 then some (intStr v ++ " gold") else none
  | none => none

/-- Modelled from the source id generator: the timestamp-random pair is
replaced by a threaded counter, keeping the hyphen-joined shape. -/
def generateId (n : Nat) : String × Nat := (natStr n ++ "-gen", n + 1)

/-- Fixed lookup table from legacy room type strings to the current
room-type enumeration; unrecognized strings map to empty. -/
def mapLegacyRoomType (legacyType : String) : RoomType :=
  match legacyType with
  | "entrance" => .entrance
  | "boss" => .boss
  | "treasure" => .treasure
  | "puzzle" => .puzzle
  | "combat" => .combat
  | "rest" => .rest
  | "trap" => .trap
  | "empty" => .empty
  | "lore" => .empty
  | "story" => .empty
  | _ => .empty

/-- Conversion of one legacy monster. -/
def convertLegacyMonster (n : Nat) (dungeonLevel : Int) (lm : LegacyMonster) :
    Monster × Nat :=
  let mid := (generateId n).1
  let n := (generateId n).2
  let nm := strOr lm.name "Unknown Monster"
  let lvl := numOr lm.level dungeonLevel
  ({ id := mid,
     name := nm,
     type := strOr lm.specialAbility "enemy",
     stats := { health := numOr lm.maxHealth 50,
                attack := numOr lm.damage 10,
                defense := numOr lm.defense 5,
                speed := numOr lm.agility 10 },
     level := lvl,
     description := some (nm ++ " - Level " ++ intStr lvl),
     loot := some (match lm.goldValue with
                   | some g => if g ≠ 0 then [intStr g ++ " gold"] else []
                   | none => []) }, n)

/-- Conversion of a legacy monster list, threading the id counter in
order. -/
def convertLegacyMonsters (n : Nat) (dungeonLevel : Int)
    (ms : List LegacyMonster) : List Monster × Nat :=
  ms.foldl (fun acc lm =>
    (acc.1 ++ [(convertLegacyMonster acc.2 dungeonLevel lm).1],
     (convertLegacyMonster acc.2 dungeonLevel lm).2)) ([], n)

/-- First-pass conversion of one legacy room: fresh id, mapped type, flat
coordinates, defaulted description, empty connections, and converted
nested content. -/
def convertLegacyRoom (n : Nat) (dungeonLevel : Int) (lr : LegacyRoom) :
    Room × Nat :=
  let rid := (generateId n).1
  let n1 := (generateId n).2
  let mPair : Option (List Monster) × Nat :=
    match lr.monsters with
    | some ms =>
      (some (convertLegacyMonsters n1 dungeonLevel ms).1,
       (convertLegacyMonsters n1 dungeonLevel ms).2)
    | none => (none, n1)
  let pPair : Option Puzzle × Nat :=
    match lr.puzzle with
    | some lp =>
      (some { id := (generateId mPair.2).1,
              type := strOr lp.type "riddle",
              difficulty := DifficultyLevel.medium,
              description := strOr lp.description (strOr lp.question ""),
              solution := lp.answer,
              reward := goldReward lp.rewardGold : Puzzle }, (generateId mPair.2).2)
    | none => (none, mPair.2)
  let sPair : Option StoryEvent × Nat :=
    match lr.storyEvent with
    | some ls =>
      (some { id := (generateId pPair.2).1,
              title := strOr ls.title "Story Event",
              description := strOr ls.description "",
              choices := some ((ls.choices.getD []).map (fun c => strOr c.text "")),
              consequences := some ((ls.choices.getD []).map
                (fun c => strOr (c.outcome.bind LegacyOutcome.description) ""))
              : StoryEvent }, (generateId pPair.2).2)
    | none => (none, pPair.2)
  let lPair : Option (List Lore) × Nat :=
    match lr.loreEntry with
    | some ll =>
      (some [{ id := (generateId sPair.2).1,
               title := strOr ll.title "Lore Entry",
               content := strOr ll.text "",
               discovered := some false : Lore }], (generateId sPair.2).2)
    | none => (none, sPair.2)
  let secPair : Option (List Secret) × Nat :=
    match lr.secret with
    | some lsec =>
      (some [{ id := (generateId lPair.2).1,
               type := SecretType.treasure,
               description := strOr lsec.description "A hidden treasure",
               reward := goldReward lsec.rewardGold : Secret }], (generateId lPair.2).2)
    | none => (none, lPair.2)
  ({ id := rid,
     type := mapLegacyRoomType lr.type,
     coordinates := { x := numOr lr.x 0, y := numOr lr.y 0, z := none },
     description := strOr lr.description "",
     connections := [],
     monsters := mPair.1,
     puzzle := pPair.1,
     story := sPair.1,
     lore := lPair.1,
     secrets := secPair.1,
     visited := some false,
     cleared := some false }, secPair.2)

/-- First pass over the legacy rooms, converting each and threading the
id counter. -/
def convertLegacyRooms (n : Nat) (dungeonLevel : Int) (lrs : List LegacyRoom) :
    List Room × Nat :=
  lrs.foldl (fun acc lr =>
    (acc.1 ++ [(convertLegacyRoom acc.2 dungeonLevel lr).1],
     (convertLegacyRoom acc.2 dungeonLevel lr).2)) ([], n)

/-- Spatial neighbour search: offsets the source coordinates one grid
step following the switch in the source (north decrements y, south
increments y, east increments x, west decrements x) and returns the
first converted room at that cell. -/
def findRoomByDirection (rooms : List Room) (fromCoords : Coordinates)
    (direction : Direction) : Option Room :=
  let targetX :=
    match direction with
    | .east => fromCoords.x + 1
    | .west => fromCoords.x - 1
    | _ => fromCoords.x
  let targetY :=
    match direction with
    | .north => fromCoords.y - 1
    | .south => fromCoords.y + 1
    | _ => fromCoords.y
  rooms.find? (fun room =>
    decide (room.coordinates.x = targetX ∧ room.coordinates.y = targetY))

/-- Second-pass step for one direction entry: resolve the neighbour cell
and add a connection to it unless one to the same target already exists;
an unresolved direction leaves the room unchanged.  The search reads
only coordinates and ids, which the second pass never modifies, so it
runs against the first-pass room list. -/
def addDirConnection (rooms : List Room) (room : Room) (direction : Direction) :
    Room :=
  match findRoomByDirection rooms room.coordinates direction with
  | some targetRoom =>
    if (room.connections.find?
        (fun conn => decide (conn.targetRoomId = targetRoom.id))).isSome then
      room
    else
      { room with connections := room.connections
          ++ [{ direction := direction, targetRoomId := targetRoom.id,
                locked := some false, hidden := some false }] }
  | none => room

/-- Second-pass resolution of the direction list of one legacy room. -/
def resolveConnections (rooms : List Room) (lr : LegacyRoom) (room : Room) :
    Room :=
  match lr.connections with
  | some dirs => dirs.foldl (addDirConnection rooms) room
  | none => room

/-- Conversion of one legacy dungeon record: synthesized metadata, two
passes over the rooms.  The now argument carries the timestamp written
into createdAt and updatedAt. -/
def convertLegacyDungeon (now : String) (n : Nat) (ld : LegacyDungeon) :
    Dungeon × Nat :=
  let did := (generateId n).1
  let n1 := (generateId n).2
  let lvl := numOr ld.level 1
  let sz := numOr ld.size 10
  let roomCount : Nat := (ld.rooms.getD []).length
  let rooms1 :=
    match ld.rooms with
    | some lrs => (convertLegacyRooms n1 lvl lrs).1
    | none => []
  let nOut :=
    match ld.rooms with
    | some lrs => (convertLegacyRooms n1 lvl lrs).2
    | none => n1
  let rooms2 :=
    match ld.rooms with
    | some lrs => (lrs.zip rooms1).map (fun p => resolveConnections rooms1 p.1 p.2)
    | none => rooms1
  ({ id := did,
     name := "Level " ++ intStr lvl ++ " Dungeon",
     difficulty := DifficultyLevel.medium,
     level := lvl,
     size := { width := sz, height := sz, depth := none },
     description := "A level " ++ intStr lvl ++ " dungeon with "
       ++ natStr roomCount ++ " rooms",
     rooms := rooms2,
     floors := none,
     createdAt := some now,
     updatedAt := some now }, nOut)

/-- convertLegacyFormat: returns the empty list when the dungeons field
is missing or not an array, otherwise converts every record in order. -/
def convertLegacyFormat (now : String) (n0 : Nat) (legacyData : LegacyInput) :
    List Dungeon × Nat :=
  match legacyData with
  | .noDungeons => ([], n0)
  | .dungeonsNotArray => ([], n0)
  | .dungeonsArr ds =>
    ds.foldl (fun acc ld =>
      (acc.1 ++ [(convertLegacyDungeon now acc.2 ld).1],
       (convertLegacyDungeon now acc.2 ld).2)) ([], n0)

/-- An empty legacy room record, convenient for building concrete
inputs. -/
def emptyLegacyRoom (i : Int) (ty : String) (px py : Int) : LegacyRoom :=
  { id := i, type := ty, x := some px, y := some py, description := none,
    connections := none, monsters := none, puzzle := none,
    storyEvent := none, loreEntry := none, secret := none }

/-- The legacy input of the import test property: a level-3 size-8
dungeon with an entrance at the origin connected south to a boss one
cell below, connected back north. -/
def legacyC4 : LegacyInput :=
  LegacyInput.dungeonsArr
    [{ level := some 3,
       size := some 8,
       rooms := some
         [{ emptyLegacyRoom 1 "entrance" 0 0 with connections := some [.south] },
          { emptyLegacyRoom 2 "boss" 0 1 with connections := some [.north] }] }]

/-!
Reasoning toolkit for the decimal renderer: an abstract digit list that
the fuel-driven loop computes, a parser that inverts it, and injectivity
of the rendered strings.  These facts let error messages that embed
numbers be attributed to the numbers they embed.
-/

/-- Abstract digit list of a natural number, structurally recursive on
the value. -/
def natDigitsAbs (n : Nat) : List Char :=
  if h : n < 10 then [Nat.digitChar n]
  else
    have : n / 10 < n := Nat.div_lt_self (by omega) (by omega)
    natDigitsAbs (n / 10) ++ [Nat.digitChar (n % 10)]

/-- Numeric value of a digit character. -/
def digitVal (c : Char) : Nat := c.toNat - 48

/-- Parser inverting the digit rendering. -/
def parseDigits (l : List Char) : Nat :=
  l.foldl (fun a c => a * 10 + digitVal c) 0

/-!
Message tags.  Every check writes messages with a distinct fixed opening,
so the first three characters of a message identify the check that
produced the error.  This supports attributing errors in the flat error
list back to individual checks.
-/

/-- The first three characters of the message of an error. -/
def msgTag (e : ValidationError) : List Char := e.message.data.take 3

/-!
Statement-side predicates used to phrase the claims.  They are written
over the embedded definitions; reciprocity refers to the room the
validator resolves the target id to (the last room carrying that id, as
the JavaScript Map keeps the last binding).
-/

/-- The effective room set holds a room of the given type. -/
abbrev hasRoomType (d : Dungeon) (ty : RoomType) : Prop :=
  ∃ r ∈ effectiveRooms d, r.type = ty

/-- Coordinate keys of the effective room set are pairwise distinct. -/
abbrev coordsDistinct (d : Dungeon) : Prop :=
  ((effectiveRooms d).map coordKey).Nodup

/-- Every connection resolves to a room of the effective set and that
room carries a connection back in the opposite direction. -/
abbrev allReciprocal (d : Dungeon) : Prop :=
  ∀ r ∈ effectiveRooms d, ∀ c ∈ r.connections,
    ∃ t ∈ effectiveRooms d,
      roomLookup (effectiveRooms d) c.targetRoomId = some t
        ∧ ∃ rc ∈ t.connections,
            rc.direction = getOppositeDirection c.direction
              ∧ rc.targetRoomId = r.id

/-- Every monster level lies inside the dungeon-level window. -/
abbrev monsterLevelsOk (d : Dungeon) : Prop :=
  ∀ r ∈ effectiveRooms d, ∀ m ∈ r.monsters.getD [],
    d.level - 2 ≤ m.level ∧ m.level ≤ d.level + 2

/-- When the floors list is in use, a set depth is zero or matches the
floor count. -/
abbrev depthOk (d : Dungeon) : Prop :=
  0 < (d.floors.getD []).length →
    d.size.depth.getD 0 = 0
      ∨ d.size.depth.getD 0 = ((d.floors.getD []).length : Int)

/-!  Concrete instances used by counterexamples and witnesses.  -/

/-- A bare room with the given id, type and position. -/
def roomEx (i : String) (ty : RoomType) (px py : Int) : Room :=
  { id := i, type := ty, coordinates := { x := px, y := py, z := none },
    description := "r", connections := [], monsters := none, puzzle := none,
    story := none, lore := none, secrets := none, visited := none,
    cleared := none }

/-- Single-floor dungeon with entrance and boss but a depth of 2. -/
def dungeonC1x : Dungeon :=
  { id := "d1", name := "x", difficulty := .easy, level := 1,
    size := { width := 3, height := 3, depth := some 2 },
    description := "", rooms := [],
    floors := some
      [{ floorNumber := 1, name := "f", description := "",
         rooms := [roomEx "e" .entrance 0 0, roomEx "b" .boss 1 0] }],
    createdAt := none, updatedAt := none }

/-- Flat dungeon with an entrance and a boss room and nothing else. -/
def dungeonC1w : Dungeon :=
  { id := "d1w", name := "w", difficulty := .easy, level := 1,
    size := { width := 3, height := 3, depth := none },
    description := "",
    rooms := [roomEx "e" .entrance 0 0, roomEx "b" .boss 1 0],
    floors := none, createdAt := none, updatedAt := none }

/-- Dungeon whose floors list is nonempty while every floor is empty. -/
def dungeonC2x : Dungeon :=
  { id := "d2", name := "x", difficulty := .easy, level := 1,
    size := { width := 1, height := 1, depth := some 1 },
    description := "", rooms := [],
    floors := some
      [{ floorNumber := 1, name := "f", description := "", rooms := [] }],
    createdAt := none, updatedAt := none }

/-- Dungeon with no floors and no rooms at all. -/
def dungeonC2w : Dungeon :=
  { id := "d2w", name := "w", difficulty := .easy, level := 1,
    size := { width := 1, height := 1, depth := none },
    description := "", rooms := [], floors := none,
    createdAt := none, updatedAt := none }

/-- Two rooms joined only by one directed north edge from the first to
the second; the second carries no connections at all. -/
abbrev singleEdgePair (d : Dungeon) (A B : Room) (c : RoomConnection) : Prop :=
  effectiveRooms d = [A, B] ∧ A.connections = [c]
    ∧ c.direction = Direction.north ∧ c.targetRoomId = B.id
    ∧ B.connections = []

/-- One room of the counterexample pair: carries the single north edge. -/
def roomC3A : Room :=
  { roomEx "A" .entrance 0 0 with
      connections := [⟨.north, "B", some false, some false⟩] }

/-- Other room of the counterexample pair: carries an east edge back,
which is not the reciprocal the claim speaks about. -/
def roomC3B : Room :=
  { roomEx "B" .boss 0 1 with
      connections := [⟨.east, "A", some false, some false⟩] }

/-- Dungeon built from the counterexample pair. -/
def dungeonC3x : Dungeon :=
  { id := "d3", name := "x", difficulty := .easy, level := 1,
    size := { width := 2, height := 2, depth := none },
    description := "", rooms := [roomC3A, roomC3B], floors := none,
    createdAt := none, updatedAt := none }

/-- Room A of the witness pair for the reciprocity claim. -/
def roomC3wA : Room :=
  { roomEx "A" .entrance 0 0 with
      connections := [⟨.north, "B", some false, some false⟩] }

/-- Room B of the witness pair: no connections. -/
def roomC3wB : Room := roomEx "B" .boss 0 1

/-- Dungeon of the witness pair, holding only the single north edge. -/
def dungeonC3w : Dungeon :=
  { id := "d3w", name := "w", difficulty := .easy, level := 1,
    size := { width := 2, height := 2, depth := none },
    description := "", rooms := [roomC3wA, roomC3wB], floors := none,
    createdAt := none, updatedAt := none }

/-- Room A of the reciprocated pair. -/
def roomC3rA : Room :=
  { roomEx "A" .entrance 0 0 with
      connections := [⟨.north, "B", some false, some false⟩] }

/-- Room B of the reciprocated pair: carries the south edge back. -/
def roomC3rB : Room :=
  { roomEx "B" .boss 0 1 with
      connections := [⟨.south, "A", some false, some false⟩] }

/-- A minimal monster at the given level. -/
def monsterEx (i : String) (lvl : Int) : Monster :=
  { id := i, name := "m", type := "enemy",
    stats := { health := 10, attack := 1, defense := 1, speed := 1 },
    level := lvl, description := none, loot := none }

/-- Room hosting an out-of-window monster (dungeon level 5, monster 8). -/
def roomC6a : Room :=
  { roomEx "r" .entrance 0 0 with monsters := some [monsterEx "mm" 8] }

/-- Dungeon at level 5 hosting the out-of-window monster. -/
def dungeonC6a : Dungeon :=
  { id := "d6a", name := "a", difficulty := .easy, level := 5,
    size := { width := 2, height := 2, depth := none },
    description := "", rooms := [roomC6a], floors := none,
    createdAt := none, updatedAt := none }

/-- Room hosting a boundary monster (dungeon level 5, monster 7). -/
def roomC6b : Room :=
  { roomEx "r" .entrance 0 0 with monsters := some [monsterEx "mm" 7] }

/-- Dungeon at level 5 hosting the boundary monster. -/
def dungeonC6b : Dungeon :=
  { id := "d6b", name := "b", difficulty := .easy, level := 5,
    size := { width := 2, height := 2, depth := none },
    description := "", rooms := [roomC6b], floors := none,
    createdAt := none, updatedAt := none }

/-- The entrance room the import is expected to produce: fresh id from
the second generator call, south edge to the boss room. -/
def c4room0 : Room :=
  { id := "1-gen", type := .entrance, coordinates := { x := 0, y := 0, z := none },
    description := "",
    connections := [⟨.south, "2-gen", some false, some false⟩],
    monsters := none, puzzle := none, story := none, lore := none,
    secrets := none, visited := some false, cleared := some false }

/-- The boss room the import is expected to produce: fresh id from the
third generator call, north edge back to the entrance. -/
def c4room1 : Room :=
  { id := "2-gen", type := .boss, coordinates := { x := 0, y := 1, z := none },
    description := "",
    connections := [⟨.north, "1-gen", some false, some false⟩],
    monsters := none, puzzle := none, story := none, lore := none,
    secrets := none, visited := some false, cleared := some false }

/-- Offsets of the claim table: north one step up the grid (y minus
one), south one step down (y plus one), east one step right (x plus
one), west one step left (x minus one). -/
def specDirDx : Direction → Int
  | .north => 0
  | .south => 0
  | .east => 1
  | .west => -1

/-- Vertical offset of the claim table. -/
def specDirDy : Direction → Int
  | .north => -1
  | .south => 1
  | .east => 0
  | .west => 0

/-- Target room sitting one cell north of the origin. -/
def roomC5T : Room := roomEx "T" .empty 0 (-1)

/-- Source room of the resolution witness. -/
def roomC5S : Room := roomEx "S" .empty 0 0

/-- Legacy room listing a resolvable north entry and an unresolvable
east entry. -/
def legacyRoomC5 : LegacyRoom :=
  { emptyLegacyRoom 1 "empty" 0 0 with connections := some [.north, .east] }

/-- Legacy room listing only the unresolvable east entry. -/
def legacyRoomC5e : LegacyRoom :=
  { emptyLegacyRoom 1 "empty" 0 0 with connections := some [.east] }

/-- The imported dungeon used by the closure witness. -/
def c9d : Dungeon := (convertLegacyFormat "t" 0 legacyC4).1.getD 0 dungeonC2w

/-- Its first room. -/
def c9r : Room := c9d.rooms.getD 0 roomC3wB

/-- Its single connection. -/
def c9c : RoomConnection :=
  c9r.connections.getD 0 ⟨Direction.north, "x", none, none⟩

theorem natDigitsAbs_lt {n : Nat} (h : n < 10) :
    natDigitsAbs n = [Nat.digitChar n] := by
  rw [natDigitsAbs, dif_pos h]

theorem natDigitsAbs_ge {n : Nat} (h : ¬ n < 10) :
    natDigitsAbs n = natDigitsAbs (n / 10) ++ [Nat.digitChar (n % 10)] := by
  conv_lhs => rw [natDigitsAbs]
  rw [dif_neg h]

theorem natDigitsCore_eq_abs :
    ∀ (fuel n : Nat) (ds : List Char), n < fuel →
      natDigitsCore fuel n ds = natDigitsAbs n ++ ds := by
  intro fuel
  induction fuel with
  | zero => intro n ds h; omega
  | succ fuel ih =>
    intro n ds h
    unfold natDigitsCore
    by_cases h10 : n / 10 = 0
    · have hn : n < 10 := by omega
      rw [if_pos h10, natDigitsAbs_lt hn, Nat.mod_eq_of_lt hn]
      rfl
    · have hge : ¬ n < 10 := by omega
      have hlt : n / 10 < fuel := by
        have : n / 10 < n := Nat.div_lt_self (by omega) (by omega)
        omega
      rw [if_neg h10, ih (n / 10) _ hlt, natDigitsAbs_ge hge,
        List.append_assoc]
      rfl

theorem natStr_data (n : Nat) : (natStr n).data = natDigitsAbs n := by
  have h : (natStr n).data = natDigitsCore (n + 1) n [] := rfl
  rw [h, natDigitsCore_eq_abs (n + 1) n [] (by omega), List.append_nil]

theorem digitVal_digitChar (k : Nat) (h : k < 10) :
    digitVal (Nat.digitChar k) = k := by
  interval_cases k <;> rfl

theorem parseDigits_natDigitsAbs (n : Nat) :
    parseDigits (natDigitsAbs n) = n := by
  induction n using Nat.strong_induction_on with
  | _ n ih =>
    by_cases h : n < 10
    · rw [natDigitsAbs_lt h]
      show 0 * 10 + digitVal (Nat.digitChar n) = n
      rw [digitVal_digitChar n h]; omega
    · have hlt : n / 10 < n := Nat.div_lt_self (by omega) (by omega)
      rw [natDigitsAbs_ge h]
      show List.foldl _ 0 (natDigitsAbs (n / 10) ++ [Nat.digitChar (n % 10)]) = n
      rw [List.foldl_append]
      show parseDigits (natDigitsAbs (n / 10)) * 10 + digitVal (Nat.digitChar (n % 10)) = n
      rw [ih (n / 10) hlt, digitVal_digitChar _ (Nat.mod_lt n (by omega))]
      omega

theorem natStr_injective : Function.Injective natStr := by
  intro a b h
  have hd : natDigitsAbs a = natDigitsAbs b := by
    rw [← natStr_data, ← natStr_data, h]
  have := congrArg parseDigits hd
  rwa [parseDigits_natDigitsAbs, parseDigits_natDigitsAbs] at this

theorem natDigitsAbs_head (n : Nat) :
    ∃ k, k < 10 ∧ ∃ t, natDigitsAbs n = Nat.digitChar k :: t := by
  induction n using Nat.strong_induction_on with
  | _ n ih =>
    by_cases h : n < 10
    · exact ⟨n, h, [], by rw [natDigitsAbs_lt h]⟩
    · have hlt : n / 10 < n := Nat.div_lt_self (by omega) (by omega)
      obtain ⟨k, hk, t, ht⟩ := ih (n / 10) hlt
      exact ⟨k, hk, t ++ [Nat.digitChar (n % 10)],
        by rw [natDigitsAbs_ge h, ht]; rfl⟩

theorem digitChar_ne_dash (k : Nat) (h : k < 10) : Nat.digitChar k ≠ '-' := by
  interval_cases k <;> decide

theorem string_eq_of_data (s t : String) (h : s.data = t.data) : s = t := by
  cases s; cases t; exact congrArg String.mk h

theorem intStr_injective : Function.Injective intStr := by
  intro a b h
  cases a with
  | ofNat m =>
    cases b with
    | ofNat m2 => exact congrArg Int.ofNat (natStr_injective h)
    | negSucc m2 =>
      exfalso
      have hd : (natStr m).data = ("-" ++ natStr (m2 + 1)).data := congrArg String.data h
      rw [natStr_data, String.data_append] at hd
      obtain ⟨k, hk, t, ht⟩ := natDigitsAbs_head m
      rw [ht] at hd
      have : Nat.digitChar k = '-' := by
        have := congrArg List.head? hd
        simpa using this
      exact digitChar_ne_dash k hk this
  | negSucc m =>
    cases b with
    | ofNat m2 =>
      exfalso
      have hd : ("-" ++ natStr (m + 1)).data = (natStr m2).data := congrArg String.data h
      rw [natStr_data, String.data_append] at hd
      obtain ⟨k, hk, t, ht⟩ := natDigitsAbs_head m2
      rw [ht] at hd
      have : '-' = Nat.digitChar k := by
        have := congrArg List.head? hd
        simpa using this
      exact digitChar_ne_dash k hk this.symm
    | negSucc m2 =>
      have hd : ("-" ++ natStr (m + 1)).data = ("-" ++ natStr (m2 + 1)).data :=
        congrArg String.data h
      rw [String.data_append, String.data_append] at hd
      have hd2 : (natStr (m + 1)).data = (natStr (m2 + 1)).data := by
        simpa using hd
      have hm := natStr_injective (string_eq_of_data _ _ hd2)
      exact congrArg Int.negSucc (by omega)

theorem three_le_append_left (a b : String) (h : 3 ≤ a.data.length) :
    3 ≤ (a ++ b).data.length := by
  rw [String.data_append, List.length_append]
  omega

theorem msgTag_noRoomsError : msgTag noRoomsError = ['D', 'u', 'n'] := by decide

theorem msgTag_entranceError : msgTag entranceError = ['D', 'u', 'n'] := by decide

theorem msgTag_bossError : msgTag bossError = ['D', 'u', 'n'] := by decide

theorem msgTag_depthError (dep : Int) (nf : Nat) :
    msgTag (depthError dep nf) = ['D', 'u', 'n'] := by
  have h1 : 3 ≤ ("Dungeon depth (" : String).data.length := by decide
  have h2 := three_le_append_left _ (intStr dep) h1
  have h3 := three_le_append_left _ (") should match number of floors (" : String) h2
  have h4 := three_le_append_left _ (natStr nf) h3
  unfold msgTag depthError
  show (("Dungeon depth (" ++ intStr dep ++ ") should match number of floors ("
      ++ natStr nf) ++ ")").data.take 3 = _
  rw [String.data_append]
  have h4d : 3 ≤ (("Dungeon depth (" ++ intStr dep
      ++ ") should match number of floors (" ++ natStr nf) : String).data.length := h4
  rw [List.take_append_of_le_length h4d, String.data_append,
    List.take_append_of_le_length h3, String.data_append,
    List.take_append_of_le_length h2, String.data_append,
    List.take_append_of_le_length h1]
  decide

theorem msgTag_coordError (r : Room) : msgTag (coordError r) = ['D', 'u', 'p'] := by
  have h1 : 3 ≤ ("Duplicate coordinates found at (" : String).data.length := by decide
  have h2 := three_le_append_left _ (intStr r.coordinates.x) h1
  have h3 := three_le_append_left _ (", " : String) h2
  have h4 := three_le_append_left _ (intStr r.coordinates.y) h3
  have h5 := three_le_append_left _ (", " : String) h4
  have h6 := three_le_append_left _ (intStr (r.coordinates.z.getD 0)) h5
  unfold msgTag coordError
  show (("Duplicate coordinates found at (" ++ intStr r.coordinates.x ++ ", "
      ++ intStr r.coordinates.y ++ ", " ++ intStr (r.coordinates.z.getD 0))
      ++ ")").data.take 3 = _
  rw [String.data_append, List.take_append_of_le_length h6, String.data_append,
    List.take_append_of_le_length h5, String.data_append,
    List.take_append_of_le_length h4, String.data_append,
    List.take_append_of_le_length h3, String.data_append,
    List.take_append_of_le_length h2, String.data_append,
    List.take_append_of_le_length h1]
  decide

theorem msgTag_connMissingError (roomId targetId : String) :
    msgTag (connMissingError roomId targetId) = ['C', 'o', 'n'] := by
  have h1 : 3 ≤ ("Connection to non-existent room: " : String).data.length := by
    decide
  unfold msgTag connMissingError
  show ("Connection to non-existent room: " ++ targetId).data.take 3 = _
  rw [String.data_append, List.take_append_of_le_length h1]
  decide

theorem msgTag_recipError (roomId targetId : String) (opp : Direction) :
    msgTag (recipError roomId targetId opp) = ['M', 'i', 's'] := by
  have h1 : 3 ≤ ("Missing reciprocal connection from room " : String).data.length := by
    decide
  have h2 := three_le_append_left _ targetId h1
  have h3 := three_le_append_left _ (" (" : String) h2
  have h4 := three_le_append_left _ (directionStr opp) h3
  unfold msgTag recipError
  show (("Missing reciprocal connection from room " ++ targetId ++ " ("
      ++ directionStr opp) ++ ")").data.take 3 = _
  rw [String.data_append, List.take_append_of_le_length h4, String.data_append,
    List.take_append_of_le_length h3, String.data_append,
    List.take_append_of_le_length h2, String.data_append,
    List.take_append_of_le_length h1]
  decide

theorem msgTag_monsterLevelError (roomId : String) (m : Monster) (lvl : Int) :
    msgTag (monsterLevelError roomId m lvl) = ['M', 'o', 'n'] := by
  have h1 : 3 ≤ ("Monster level " : String).data.length := by decide
  have h2 := three_le_append_left _ (intStr m.level) h1
  have h3 := three_le_append_left _
    (" is not appropriate for dungeon level " : String) h2
  unfold msgTag monsterLevelError
  show (("Monster level " ++ intStr m.level
      ++ " is not appropriate for dungeon level ") ++ intStr lvl).data.take 3 = _
  rw [String.data_append, List.take_append_of_le_length h3, String.data_append,
    List.take_append_of_le_length h2, String.data_append,
    List.take_append_of_le_length h1]
  decide

/-!  Shape of the members of each check component.  -/

theorem mem_entranceErrors {l : List Room} {e : ValidationError}
    (h : e ∈ entranceErrors l) : e = entranceError := by
  unfold entranceErrors at h
  split at h <;> simp_all

theorem mem_bossErrors {l : List Room} {e : ValidationError}
    (h : e ∈ bossErrors l) : e = bossError := by
  unfold bossErrors at h
  split at h <;> simp_all

theorem mem_depthErrors {d : Dungeon} {fs : List DungeonFloor}
    {e : ValidationError} (h : e ∈ depthErrors d fs) :
    ∃ dep, e = depthError dep fs.length := by
  unfold depthErrors at h
  split at h
  · rename_i dep _
    split at h <;> simp_all
    exact ⟨dep, rfl⟩
  · simp_all

theorem mem_coordErrorsAux {e : ValidationError} :
    ∀ (l : List Room) (seen : List (Int × Int × Int)),
      e ∈ coordErrorsAux seen l → ∃ r ∈ l, e = coordError r := by
  intro l
  induction l with
  | nil => intro seen h; simp [coordErrorsAux] at h
  | cons r rest ih =>
    intro seen h
    unfold coordErrorsAux at h
    rw [List.mem_append] at h
    rcases h with h | h
    · split at h <;> simp_all
    · obtain ⟨q, hq, he⟩ := ih _ h
      exact ⟨q, List.mem_cons_of_mem _ hq, he⟩

theorem mem_coordErrors {l : List Room} {e : ValidationError}
    (h : e ∈ coordErrors l) : ∃ r ∈ l, e = coordError r :=
  mem_coordErrorsAux l [] h

theorem connErrsForConn_cases {allRooms : List Room} {room : Room}
    {conn : RoomConnection} {e : ValidationError}
    (h : e ∈ connErrsForConn allRooms room conn) :
    (roomLookup allRooms conn.targetRoomId = none
        ∧ e = connMissingError room.id conn.targetRoomId)
      ∨ (∃ t, roomLookup allRooms conn.targetRoomId = some t
          ∧ e = recipError room.id conn.targetRoomId
              (getOppositeDirection conn.direction)) := by
  unfold connErrsForConn at h
  split at h
  · rename_i hl
    left
    simp_all
  · rename_i t hl
    right
    refine ⟨t, hl, ?_⟩
    dsimp only at h
    split at h <;> simp_all

theorem mem_connectionErrors {l : List Room} {e : ValidationError}
    (h : e ∈ connectionErrors l) :
    ∃ room ∈ l, ∃ conn ∈ room.connections, e ∈ connErrsForConn l room conn := by
  unfold connectionErrors at h
  rw [List.mem_flatten] at h
  obtain ⟨inner, hinner, he⟩ := h
  rw [List.mem_map] at hinner
  obtain ⟨room, hroom, rfl⟩ := hinner
  rw [List.mem_flatten] at he
  obtain ⟨inner2, hinner2, he2⟩ := he
  rw [List.mem_map] at hinner2
  obtain ⟨conn, hconn, rfl⟩ := hinner2
  exact ⟨room, hroom, conn, hconn, he2⟩

theorem mem_monsterErrsForRoom {lvl : Int} {room : Room} {e : ValidationError}
    (h : e ∈ monsterErrsForRoom lvl room) :
    ∃ m ∈ room.monsters.getD [],
      (m.level < lvl - 2 ∨ m.level > lvl + 2) ∧ e = monsterLevelError room.id m lvl := by
  unfold monsterErrsForRoom at h
  split at h
  · simp_all
  · rename_i ms hms
    rw [List.mem_flatten] at h
    obtain ⟨inner, hinner, he⟩ := h
    rw [List.mem_map] at hinner
    obtain ⟨m, hm, rfl⟩ := hinner
    refine ⟨m, by simp [hms, hm], ?_⟩
    split at he <;> simp_all

theorem mem_monsterLevelErrors {lvl : Int} {l : List Room} {e : ValidationError}
    (h : e ∈ monsterLevelErrors lvl l) :
    ∃ room ∈ l, ∃ m ∈ room.monsters.getD [],
      (m.level < lvl - 2 ∨ m.level > lvl + 2)
        ∧ e = monsterLevelError room.id m lvl := by
  unfold monsterLevelErrors at h
  rw [List.mem_flatten] at h
  obtain ⟨inner, hinner, he⟩ := h
  rw [List.mem_map] at hinner
  obtain ⟨room, hroom, rfl⟩ := hinner
  obtain ⟨m, hm, hb, he2⟩ := mem_monsterErrsForRoom he
  exact ⟨room, hroom, m, hm, hb, he2⟩

/-!  Branch descriptions of validateDungeon.  -/

theorem effectiveRooms_floors {d : Dungeon}
    (h : 0 < (d.floors.getD []).length) :
    effectiveRooms d = ((d.floors.getD []).map DungeonFloor.rooms).flatten := by
  simp only [effectiveRooms]
  rw [if_pos h]

theorem effectiveRooms_flat {d : Dungeon}
    (h : ¬ 0 < (d.floors.getD []).length) :
    effectiveRooms d = d.rooms := by
  simp only [effectiveRooms]
  rw [if_neg h]

theorem validateDungeon_floors {d : Dungeon}
    (h : 0 < (d.floors.getD []).length) :
    validateDungeon d =
      ⟨decide ((depthErrors d (d.floors.getD [])
          ++ mainChecks d (effectiveRooms d)).length = 0),
       depthErrors d (d.floors.getD []) ++ mainChecks d (effectiveRooms d)⟩ := by
  rw [effectiveRooms_floors h]
  simp only [validateDungeon]
  rw [if_pos h]

theorem validateDungeon_flat {d : Dungeon}
    (h1 : ¬ 0 < (d.floors.getD []).length) (h2 : 0 < d.rooms.length) :
    validateDungeon d =
      ⟨decide ((mainChecks d (effectiveRooms d)).length = 0),
       mainChecks d (effectiveRooms d)⟩ := by
  rw [effectiveRooms_flat h1]
  simp only [validateDungeon]
  rw [if_neg h1, if_pos h2]

theorem validateDungeon_none {d : Dungeon}
    (h1 : ¬ 0 < (d.floors.getD []).length) (h2 : ¬ 0 < d.rooms.length) :
    validateDungeon d = ⟨false, [noRoomsError]⟩ := by
  simp only [validateDungeon]
  rw [if_neg h1, if_neg h2]

theorem validateDungeon_errors_decomp {d : Dungeon}
    (h : effectiveRooms d ≠ []) :
    ∃ pre, (validateDungeon d).errors = pre ++ mainChecks d (effectiveRooms d)
      ∧ ∀ e ∈ pre, ∃ dep, e = depthError dep (d.floors.getD []).length := by
  by_cases hf : 0 < (d.floors.getD []).length
  · refine ⟨depthErrors d (d.floors.getD []), ?_, ?_⟩
    · rw [validateDungeon_floors hf]
    · intro e he
      exact mem_depthErrors he
  · have hr : 0 < d.rooms.length := by
      rw [effectiveRooms_flat hf] at h
      cases hd : d.rooms with
      | nil => exact absurd hd h
      | cons a l => simp [hd]
    refine ⟨[], ?_, by simp⟩
    rw [validateDungeon_flat hf hr]
    simp

/-!  Emptiness of each check under the matching well-formedness fact.  -/

theorem entranceErrors_nil {l : List Room} (r : Room) (hr : r ∈ l)
    (ht : r.type = RoomType.entrance) : entranceErrors l = [] := by
  unfold entranceErrors
  rw [if_neg]
  intro hlen
  have hm : r ∈ l.filter (fun q => decide (q.type = RoomType.entrance)) :=
    List.mem_filter.mpr ⟨hr, by simp [ht]⟩
  rw [List.length_eq_zero] at hlen
  exact List.ne_nil_of_mem hm hlen

theorem bossErrors_nil {l : List Room} (r : Room) (hr : r ∈ l)
    (ht : r.type = RoomType.boss) : bossErrors l = [] := by
  unfold bossErrors
  rw [if_neg]
  intro hlen
  have hm : r ∈ l.filter (fun q => decide (q.type = RoomType.boss)) :=
    List.mem_filter.mpr ⟨hr, by simp [ht]⟩
  rw [List.length_eq_zero] at hlen
  exact List.ne_nil_of_mem hm hlen

theorem coordErrorsAux_nil :
    ∀ (l : List Room) (seen : List (Int × Int × Int)),
      (l.map coordKey).Nodup → (∀ r ∈ l, coordKey r ∉ seen) →
      coordErrorsAux seen l = [] := by
  intro l
  induction l with
  | nil => intro seen _ _; rfl
  | cons r rest ih =>
    intro seen hnd hdis
    unfold coordErrorsAux
    rw [if_neg (hdis r (List.mem_cons_self r rest))]
    rw [List.nil_append]
    apply ih
    · exact (List.nodup_cons.mp (by simpa using hnd)).2
    · intro q hq hmem
      rcases List.mem_cons.mp hmem with h | h
      · have : coordKey r ∈ rest.map coordKey := h ▸ List.mem_map_of_mem _ hq
        exact (List.nodup_cons.mp (by simpa using hnd)).1 this
      · exact hdis q (List.mem_cons_of_mem _ hq) h

theorem coordErrors_nil {l : List Room} (hnd : (l.map coordKey).Nodup) :
    coordErrors l = [] :=
  coordErrorsAux_nil l [] hnd (by simp)

theorem connErrsForConn_nil {allRooms : List Room} {room : Room}
    {conn : RoomConnection} (t : Room)
    (hl : roomLookup allRooms conn.targetRoomId = some t)
    (rc : RoomConnection) (hrc : rc ∈ t.connections)
    (h1 : rc.direction = getOppositeDirection conn.direction)
    (h2 : rc.targetRoomId = room.id) :
    connErrsForConn allRooms room conn = [] := by
  unfold connErrsForConn
  rw [hl]
  dsimp only
  cases hf : t.connections.find? (fun c =>
      decide (c.direction = getOppositeDirection conn.direction
        ∧ c.targetRoomId = room.id)) with
  | some _ => rfl
  | none =>
    exfalso
    have := List.find?_eq_none.mp hf rc hrc
    simp [h1, h2] at this

theorem connectionErrors_nil {l : List Room}
    (h : ∀ room ∈ l, ∀ conn ∈ room.connections, connErrsForConn l room conn = []) :
    connectionErrors l = [] := by
  rw [List.eq_nil_iff_forall_not_mem]
  intro e he
  obtain ⟨room, hroom, conn, hconn, he2⟩ := mem_connectionErrors he
  rw [h room hroom conn hconn] at he2
  exact absurd he2 (List.not_mem_nil e)

theorem monsterLevelErrors_nil {lvl : Int} {l : List Room}
    (h : ∀ room ∈ l, ∀ m ∈ room.monsters.getD [],
      lvl - 2 ≤ m.level ∧ m.level ≤ lvl + 2) :
    monsterLevelErrors lvl l = [] := by
  rw [List.eq_nil_iff_forall_not_mem]
  intro e he
  obtain ⟨room, hroom, m, hm, hb, _⟩ := mem_monsterLevelErrors he
  have := h room hroom m hm
  omega

theorem depthErrors_nil {d : Dungeon} {fs : List DungeonFloor}
    (h : ∀ dep, d.size.depth = some dep → dep = 0 ∨ dep = (fs.length : Int)) :
    depthErrors d fs = [] := by
  unfold depthErrors
  cases hd : d.size.depth with
  | none => rfl
  | some dep =>
    dsimp only
    rw [if_neg]
    intro hcon
    rcases h dep hd with h0 | h0
    · exact hcon.1 h0
    · exact hcon.2 h0

/-!  Forward membership for the monster-level check.  -/

theorem monsterLevelError_mem {lvl : Int} {l : List Room} {room : Room}
    {m : Monster} (hroom : room ∈ l) (hm : m ∈ room.monsters.getD [])
    (hb : m.level < lvl - 2 ∨ m.level > lvl + 2) :
    monsterLevelError room.id m lvl ∈ monsterLevelErrors lvl l := by
  unfold monsterLevelErrors
  rw [List.mem_flatten]
  refine ⟨monsterErrsForRoom lvl room, List.mem_map_of_mem _ hroom, ?_⟩
  unfold monsterErrsForRoom
  cases hms : room.monsters with
  | none => rw [hms] at hm; simp at hm
  | some ms =>
    rw [hms] at hm
    simp only [Option.getD_some] at hm
    rw [List.mem_flatten]
    refine ⟨_, List.mem_map_of_mem _ hm, ?_⟩
    rw [if_pos hb]
    exact List.mem_singleton_self _

/-!  Validity reflects emptiness of the error list.  -/

theorem valid_iff_errors_nil (d : Dungeon) :
    (validateDungeon d).valid = true ↔ (validateDungeon d).errors = [] := by
  by_cases h1 : 0 < (d.floors.getD []).length
  · rw [validateDungeon_floors h1]
    simp [List.length_eq_zero]
  · by_cases h2 : 0 < d.rooms.length
    · rw [validateDungeon_flat h1 h2]
      simp [List.length_eq_zero]
    · rw [validateDungeon_none h1 h2]
      simp

theorem mainChecks_nil {d : Dungeon}
    (h1 : hasRoomType d RoomType.entrance) (h2 : hasRoomType d RoomType.boss)
    (h3 : coordsDistinct d) (h4 : allReciprocal d) (h5 : monsterLevelsOk d) :
    mainChecks d (effectiveRooms d) = [] := by
  obtain ⟨re, hre, hte⟩ := h1
  obtain ⟨rb, hrb, htb⟩ := h2
  have hc : connectionErrors (effectiveRooms d) = [] := by
    apply connectionErrors_nil
    intro room hroom conn hconn
    obtain ⟨t, _, hl, rc, hrc, hx, hy⟩ := h4 room hroom conn hconn
    exact connErrsForConn_nil t hl rc hrc hx hy
  unfold mainChecks
  rw [entranceErrors_nil re hre hte, bossErrors_nil rb hrb htb,
    coordErrors_nil h3, hc, monsterLevelErrors_nil h5]
  rfl

/-- Claim C1 (counterexample): a dungeon satisfying every hypothesis of
the claim (entrance and boss present, distinct coordinate keys, all
connections reciprocal, monster levels in range) on which validateDungeon
still fails, because the depth check compares size.depth with the floor
count.  The claim as frozen omits that check. -/
theorem c1_counterexample :
    (hasRoomType dungeonC1x RoomType.entrance
        ∧ hasRoomType dungeonC1x RoomType.boss
        ∧ coordsDistinct dungeonC1x
        ∧ allReciprocal dungeonC1x
        ∧ monsterLevelsOk dungeonC1x)
      ∧ validateDungeon dungeonC1x ≠ ⟨true, []⟩
      ∧ validateDungeon dungeonC1x = ⟨false, [depthError 2 1]⟩ := by
  refine ⟨⟨?_, ?_, ?_, ?_, ?_⟩, ?_, ?_⟩ <;> decide

/-- Claim C1 (amended): for every dungeon whose effective room set holds
an entrance and a boss room, whose coordinate keys are pairwise
distinct, whose every connection resolves and is reciprocated in the
opposite direction, whose monster levels lie within the dungeon-level
window, and whose depth, when the floors list is in use and depth is
set, is zero or equal to the floor count, validateDungeon returns
valid=true with an empty error list. -/
theorem c1_amended_valid (d : Dungeon)
    (h1 : hasRoomType d RoomType.entrance) (h2 : hasRoomType d RoomType.boss)
    (h3 : coordsDistinct d) (h4 : allReciprocal d) (h5 : monsterLevelsOk d)
    (h6 : depthOk d) :
    validateDungeon d = ⟨true, []⟩ := by
  have hmc := mainChecks_nil h1 h2 h3 h4 h5
  by_cases hf : 0 < (d.floors.getD []).length
  · rw [validateDungeon_floors hf]
    have hde : depthErrors d (d.floors.getD []) = [] := by
      apply depthErrors_nil
      intro dep hdep
      have hg := h6 hf
      rw [hdep] at hg
      simpa using hg
    rw [hde, hmc]
    rfl
  · have hr : 0 < d.rooms.length := by
      obtain ⟨re, hre, _⟩ := h1
      rw [effectiveRooms_flat hf] at hre
      exact List.length_pos.mpr (List.ne_nil_of_mem hre)
    rw [validateDungeon_flat hf hr, hmc]
    rfl

/-- Claim C1 (witness): the amended theorem applied to a concrete
well-formed dungeon. -/
theorem c1_witness : validateDungeon dungeonC1w = ⟨true, []⟩ :=
  c1_amended_valid dungeonC1w (by decide) (by decide) (by decide) (by decide)
    (by decide) (by decide)

/-- Claim C2 (counterexample): a dungeon with a nonempty floors list
whose floors hold no rooms has an empty effective room set, yet
validateDungeon does not take the early return: it reports two errors
(missing entrance, missing boss), not exactly one. -/
theorem c2_counterexample :
    effectiveRooms dungeonC2x = []
      ∧ (validateDungeon dungeonC2x).valid = false
      ∧ (validateDungeon dungeonC2x).errors.length = 2
      ∧ ¬ (validateDungeon dungeonC2x).errors.length = 1 := by
  refine ⟨?_, ?_, ?_, ?_⟩ <;> decide

/-- Claim C2 (amended): for every dungeon whose floors list is missing
or empty and whose flat rooms list is empty, validateDungeon returns
valid=false with exactly the single error on field rooms and runs no
further checks. -/
theorem c2_amended_empty (d : Dungeon)
    (h1 : (d.floors.getD []).length = 0) (h2 : d.rooms = []) :
    validateDungeon d = ⟨false, [noRoomsError]⟩
      ∧ noRoomsError.field = "rooms" := by
  constructor
  · apply validateDungeon_none
    · omega
    · rw [h2]
      simp
  · rfl

/-- Claim C2 (witness): the amended theorem applied to a dungeon with
both containers empty. -/
theorem c2_witness :
    validateDungeon dungeonC2w = ⟨false, [noRoomsError]⟩
      ∧ noRoomsError.field = "rooms" :=
  c2_amended_empty dungeonC2w (by decide) (by decide)

/-- Claim C8: validateDungeon is a pure total function; the
state-passing form returns the input dungeon unchanged next to the
result, and the result always carries valid equal to emptiness of the
error list.  Totality and absence of exceptions hold by construction of
the embedding: the source reads only typed fields and never throws. -/
theorem c8_total_pure (d : Dungeon) :
    validateDungeonSt d = (validateDungeon d, d)
      ∧ ((validateDungeon d).valid = true ↔ (validateDungeon d).errors = []) :=
  ⟨rfl, valid_iff_errors_nil d⟩

/-- Claim C10: the opposite-direction table is an involution without
fixed points. -/
theorem c10_opposite_involution (dir : Direction) :
    getOppositeDirection (getOppositeDirection dir) = dir
      ∧ getOppositeDirection dir ≠ dir := by
  cases dir <;> exact ⟨rfl, by decide⟩

/-!  Filtering the error list by message tag.  -/

theorem filter_tag_nil {l : List ValidationError} {tag : List Char}
    (h : ∀ e ∈ l, msgTag e ≠ tag) :
    l.filter (fun e => decide (msgTag e = tag)) = [] := by
  rw [List.filter_eq_nil_iff]
  intro e he
  simp [h e he]

/-- Connection check over exactly two rooms, the first carrying one
connection to the second, the second carrying none: the single
unreciprocated edge yields the single reciprocity error. -/
theorem connectionErrors_pair {A B : Room} {c : RoomConnection}
    (hA : A.connections = [c]) (hct : c.targetRoomId = B.id)
    (hB : B.connections = []) :
    connectionErrors [A, B]
      = [recipError A.id B.id (getOppositeDirection c.direction)] := by
  have hlook : roomLookup [A, B] B.id = some B := by
    unfold roomLookup
    simp only [List.foldl_cons, List.foldl_nil]
    simp
  have hcc : connErrsForConn [A, B] A c
      = [recipError A.id B.id (getOppositeDirection c.direction)] := by
    unfold connErrsForConn
    rw [hct, hlook]
    dsimp only
    rw [hB]
    rfl
  unfold connectionErrors
  simp only [List.map_cons, List.map_nil]
  rw [hA, hB]
  simp only [List.map_cons, List.map_nil, List.flatten_cons, List.flatten_nil,
    List.append_nil, List.nil_append]
  exact hcc

/-- Claim C3 (counterexample): rooms A and B where A has a single north
connection to B and B has no south connection back to A, yet B carries
an unrelated east connection to A; validation reports two reciprocity
errors, not exactly one, so the claim as frozen fails. -/
theorem c3_counterexample :
    (effectiveRooms dungeonC3x = [roomC3A, roomC3B]
        ∧ roomC3A.connections.length = 1
        ∧ (∀ cc ∈ roomC3A.connections,
            cc.direction = Direction.north ∧ cc.targetRoomId = roomC3B.id)
        ∧ (∀ cc ∈ roomC3B.connections,
            ¬ (cc.direction = Direction.south ∧ cc.targetRoomId = roomC3A.id)))
      ∧ ((validateDungeon dungeonC3x).errors.filter
          (fun e => decide (msgTag e = ['M', 'i', 's']))).length = 2 := by
  refine ⟨⟨?_, ?_, ?_, ?_⟩, ?_⟩ <;> decide

/-- Claim C3 (amended): when the effective set is exactly rooms A and B
and the only connection in the dungeon is the single north edge from A
to B, validation reports exactly one reciprocity error, on field
room.A.connections, naming B and direction south; and any connection
whose reciprocal edge exists in the resolved target room contributes no
error. -/
theorem c3_reciprocity_amended :
    (∀ (d : Dungeon) (A B : Room) (c : RoomConnection),
      singleEdgePair d A B c →
        (validateDungeon d).errors.filter
            (fun e => decide (msgTag e = ['M', 'i', 's']))
          = [recipError A.id B.id Direction.south]
        ∧ (recipError A.id B.id Direction.south).field
            = "room." ++ A.id ++ ".connections"
        ∧ (recipError A.id B.id Direction.south).message.data
            = ("Missing reciprocal connection from room " : String).data
                ++ B.id.data ++ (" (south)" : String).data)
    ∧ (∀ (rooms : List Room) (room : Room) (conn : RoomConnection) (t : Room)
        (rc : RoomConnection),
        roomLookup rooms conn.targetRoomId = some t → rc ∈ t.connections →
        rc.direction = getOppositeDirection conn.direction →
        rc.targetRoomId = room.id →
        connErrsForConn rooms room conn = []) := by
  constructor
  · intro d A B c hpair
    obtain ⟨hset, hA, hdir, hct, hB⟩ := hpair
    refine ⟨?_, rfl, ?_⟩
    · have hne : effectiveRooms d ≠ [] := by rw [hset]; simp
      obtain ⟨pre, hdecomp, hpre⟩ := validateDungeon_errors_decomp hne
      rw [hdecomp, List.filter_append]
      have hpref : pre.filter (fun e => decide (msgTag e = ['M', 'i', 's'])) = [] := by
        apply filter_tag_nil
        intro e he
        obtain ⟨dep, rfl⟩ := hpre e he
        rw [msgTag_depthError]
        decide
      rw [hpref, List.nil_append]
      unfold mainChecks
      rw [hset, List.filter_append, List.filter_append, List.filter_append,
        List.filter_append]
      have h1 : (entranceErrors [A, B]).filter
          (fun e => decide (msgTag e = ['M', 'i', 's'])) = [] := by
        apply filter_tag_nil
        intro e he
        rw [mem_entranceErrors he, msgTag_entranceError]
        decide
      have h2 : (bossErrors [A, B]).filter
          (fun e => decide (msgTag e = ['M', 'i', 's'])) = [] := by
        apply filter_tag_nil
        intro e he
        rw [mem_bossErrors he, msgTag_bossError]
        decide
      have h3 : (coordErrors [A, B]).filter
          (fun e => decide (msgTag e = ['M', 'i', 's'])) = [] := by
        apply filter_tag_nil
        intro e he
        obtain ⟨r, _, rfl⟩ := mem_coordErrors he
        rw [msgTag_coordError]
        decide
      have h5 : (monsterLevelErrors d.level [A, B]).filter
          (fun e => decide (msgTag e = ['M', 'i', 's'])) = [] := by
        apply filter_tag_nil
        intro e he
        obtain ⟨r, _, m, _, _, rfl⟩ := mem_monsterLevelErrors he
        rw [msgTag_monsterLevelError]
        decide
      have h4 : (connectionErrors [A, B]).filter
          (fun e => decide (msgTag e = ['M', 'i', 's']))
          = [recipError A.id B.id Direction.south] := by
        rw [connectionErrors_pair hA hct hB, hdir]
        have hms := msgTag_recipError A.id B.id Direction.south
        simp [List.filter, hms, getOppositeDirection]
      rw [h1, h2, h3, h4, h5]
      simp
    · simp [recipError, directionStr, String.data_append, List.append_assoc]
  · intro rooms room conn t rc hl hrc hx hy
    exact connErrsForConn_nil t hl rc hrc hx hy

/-- Claim C3 (witness): both halves of the amended claim at concrete
rooms. -/
theorem c3_witness :
    (validateDungeon dungeonC3w).errors.filter
        (fun e => decide (msgTag e = ['M', 'i', 's']))
      = [recipError roomC3wA.id roomC3wB.id Direction.south]
    ∧ connErrsForConn [roomC3rA, roomC3rB] roomC3rA
        ⟨.north, "B", some false, some false⟩ = [] :=
  ⟨(c3_reciprocity_amended.1 dungeonC3w roomC3wA roomC3wB
      ⟨.north, "B", some false, some false⟩
      ⟨by decide, by decide, by decide, by decide, by decide⟩).1,
   c3_reciprocity_amended.2 [roomC3rA, roomC3rB] roomC3rA
      ⟨.north, "B", some false, some false⟩ roomC3rB
      ⟨.south, "A", some false, some false⟩
      (by decide) (by decide) (by decide) (by decide)⟩

/-!  Attribution of monster-level errors through their messages.  -/

theorem monsterLevelError_level_eq {r1 r2 : String} {m1 m2 : Monster}
    {lvl : Int} (h : monsterLevelError r1 m1 lvl = monsterLevelError r2 m2 lvl) :
    m1.level = m2.level := by
  have hmsg := congrArg ValidationError.message h
  unfold monsterLevelError at hmsg
  dsimp only at hmsg
  have hd := congrArg String.data hmsg
  simp only [String.data_append, List.append_assoc] at hd
  have hd2 := List.append_cancel_left hd
  have hd3 := List.append_cancel_right hd2
  exact intStr_injective (string_eq_of_data _ _ hd3)

/-- Claim C6: for every dungeon and every monster of a room of the
effective set, the level-bounds error the code would write for that
monster is in the validation output exactly when the monster level
leaves the inclusive window from dungeon level minus 2 to dungeon level
plus 2. -/
theorem c6_monster_level_bounds (d : Dungeon) (room : Room) (m : Monster)
    (hroom : room ∈ effectiveRooms d) (hm : m ∈ room.monsters.getD []) :
    monsterLevelError room.id m d.level ∈ (validateDungeon d).errors
      ↔ (m.level < d.level - 2 ∨ m.level > d.level + 2) := by
  have hne : effectiveRooms d ≠ [] := List.ne_nil_of_mem hroom
  obtain ⟨pre, hdecomp, hpre⟩ := validateDungeon_errors_decomp hne
  rw [hdecomp]
  constructor
  · intro hmem
    rcases List.mem_append.mp hmem with hin | hin
    · exfalso
      obtain ⟨dep, heq⟩ := hpre _ hin
      have t1 := msgTag_depthError dep (d.floors.getD []).length
      rw [← heq, msgTag_monsterLevelError] at t1
      exact absurd t1 (by decide)
    · unfold mainChecks at hin
      rcases List.mem_append.mp hin with hin | hmon
      · exfalso
        rcases List.mem_append.mp hin with hin | hconn
        · rcases List.mem_append.mp hin with hin | hcoord
          · rcases List.mem_append.mp hin with hent | hboss
            · have t1 := msgTag_entranceError
              rw [← mem_entranceErrors hent, msgTag_monsterLevelError] at t1
              exact absurd t1 (by decide)
            · have t1 := msgTag_bossError
              rw [← mem_bossErrors hboss, msgTag_monsterLevelError] at t1
              exact absurd t1 (by decide)
          · obtain ⟨r, _, heq⟩ := mem_coordErrors hcoord
            have t1 := msgTag_coordError r
            rw [← heq, msgTag_monsterLevelError] at t1
            exact absurd t1 (by decide)
        · obtain ⟨r2, _, cn, _, hcc⟩ := mem_connectionErrors hconn
          rcases connErrsForConn_cases hcc with ⟨_, heq⟩ | ⟨t, _, heq⟩
          · have t1 := msgTag_connMissingError r2.id cn.targetRoomId
            rw [← heq, msgTag_monsterLevelError] at t1
            exact absurd t1 (by decide)
          · have t1 := msgTag_recipError r2.id cn.targetRoomId
              (getOppositeDirection cn.direction)
            rw [← heq, msgTag_monsterLevelError] at t1
            exact absurd t1 (by decide)
      · obtain ⟨r2, _, m2, _, hb2, heq⟩ := mem_monsterLevelErrors hmon
        have hlvl := monsterLevelError_level_eq heq
        rw [hlvl]
        exact hb2
  · intro hb
    apply List.mem_append_right
    unfold mainChecks
    apply List.mem_append_right
    exact monsterLevelError_mem hroom hm hb

/-- Claim C6 (witness): a monster three levels above produces its error,
exactly once; a monster two levels above produces none. -/
theorem c6_witness :
    monsterLevelError roomC6a.id (monsterEx "mm" 8) dungeonC6a.level
        ∈ (validateDungeon dungeonC6a).errors
      ∧ (validateDungeon dungeonC6a).errors.count
          (monsterLevelError roomC6a.id (monsterEx "mm" 8) dungeonC6a.level) = 1
      ∧ monsterLevelError roomC6b.id (monsterEx "mm" 7) dungeonC6b.level
          ∉ (validateDungeon dungeonC6b).errors :=
  ⟨(c6_monster_level_bounds dungeonC6a roomC6a (monsterEx "mm" 8)
      (by decide) (by decide)).mpr (by decide),
   by decide,
   fun h => absurd ((c6_monster_level_bounds dungeonC6b roomC6b (monsterEx "mm" 7)
      (by decide) (by decide)).mp h) (by decide)⟩

/-- Claim C7: converting an input whose dungeons field is missing or not
an array yields the empty list, with the id state untouched.  Absence of
exceptions holds by construction: the embedding is a total function,
matching the source, which inspects only the dungeons field before
returning. -/
theorem c7_malformed_input (now : String) (n0 : Nat) :
    convertLegacyFormat now n0 LegacyInput.noDungeons = ([], n0)
      ∧ convertLegacyFormat now n0 LegacyInput.dungeonsNotArray = ([], n0) :=
  ⟨rfl, rfl⟩

/-- Claim C4: the documented legacy input converts to exactly one
dungeon of two rooms; the fresh ids are pairwise distinct and contain a
non-digit character, the room at the origin carries the single south
connection to the room one cell below and that room carries the north
connection back, and the validator accepts the result. -/
theorem c4_legacy_roundtrip (now : String) :
    ∃ d, (convertLegacyFormat now 0 legacyC4).1 = [d]
      ∧ d.rooms = [c4room0, c4room1]
      ∧ ([c4room0, c4room1].map Room.id).Nodup
      ∧ (∀ r ∈ [c4room0, c4room1],
          r.id.data.any (fun ch => decide (¬ ch.isDigit)) = true)
      ∧ c4room0.coordinates.x = 0 ∧ c4room0.coordinates.y = 0
      ∧ c4room1.coordinates.x = 0 ∧ c4room1.coordinates.y = 1
      ∧ c4room0.connections = [⟨Direction.south, c4room1.id, some false, some false⟩]
      ∧ c4room1.connections = [⟨Direction.north, c4room0.id, some false, some false⟩]
      ∧ validateDungeon d = ⟨true, []⟩ := by
  refine ⟨_, rfl, rfl, by decide, by decide, by decide, by decide, by decide,
    by decide, by decide, by decide, rfl⟩

/-!  Facts about the second-pass connection resolution.  -/

theorem addDir_id (rooms : List Room) (room : Room) (dir : Direction) :
    (addDirConnection rooms room dir).id = room.id := by
  unfold addDirConnection
  split
  · split <;> rfl
  · rfl

theorem addDir_coords (rooms : List Room) (room : Room) (dir : Direction) :
    (addDirConnection rooms room dir).coordinates = room.coordinates := by
  unfold addDirConnection
  split
  · split <;> rfl
  · rfl

theorem addDir_conns (rooms : List Room) (room : Room) (dir : Direction) :
    ∀ c ∈ (addDirConnection rooms room dir).connections,
      c ∈ room.connections
        ∨ ∃ t, findRoomByDirection rooms room.coordinates dir = some t
            ∧ c = ⟨dir, t.id, some false, some false⟩ := by
  intro c hc
  unfold addDirConnection at hc
  split at hc
  · rename_i t ht
    split at hc
    · exact Or.inl hc
    · dsimp only at hc
      rw [List.mem_append] at hc
      rcases hc with h | h
      · exact Or.inl h
      · right
        exact ⟨t, ht, by simpa using h⟩
  · exact Or.inl hc

theorem addDir_len_le (rooms : List Room) (room : Room) (dir : Direction) :
    (addDirConnection rooms room dir).connections.length
      ≤ room.connections.length + 1 := by
  unfold addDirConnection
  split
  · split
    · exact Nat.le_succ _
    · dsimp only
      rw [List.length_append]
      simp
  · exact Nat.le_succ _

theorem addDir_none_eq {rooms : List Room} {room : Room} {dir : Direction}
    (h : findRoomByDirection rooms room.coordinates dir = none) :
    addDirConnection rooms room dir = room := by
  unfold addDirConnection
  rw [h]

theorem foldAddDir_id (rooms : List Room) :
    ∀ (dirs : List Direction) (room : Room),
      (dirs.foldl (addDirConnection rooms) room).id = room.id := by
  intro dirs
  induction dirs with
  | nil => intro room; rfl
  | cons dd rest ih =>
    intro room
    rw [List.foldl_cons, ih, addDir_id]

theorem foldAddDir_coords (rooms : List Room) :
    ∀ (dirs : List Direction) (room : Room),
      (dirs.foldl (addDirConnection rooms) room).coordinates = room.coordinates := by
  intro dirs
  induction dirs with
  | nil => intro room; rfl
  | cons dd rest ih =>
    intro room
    rw [List.foldl_cons, ih, addDir_coords]

theorem foldAddDir_conns (rooms : List Room) :
    ∀ (dirs : List Direction) (room : Room),
      ∀ c ∈ (dirs.foldl (addDirConnection rooms) room).connections,
        c ∈ room.connections
          ∨ ∃ t, findRoomByDirection rooms room.coordinates c.direction = some t
              ∧ c.targetRoomId = t.id ∧ t ∈ rooms := by
  intro dirs
  induction dirs with
  | nil => intro room c hc; exact Or.inl hc
  | cons dd rest ih =>
    intro room c hc
    rw [List.foldl_cons] at hc
    rcases ih (addDirConnection rooms room dd) c hc with h | h
    · rcases addDir_conns rooms room dd c h with h2 | ⟨t, ht, rfl⟩
      · exact Or.inl h2
      · right
        refine ⟨t, ht, rfl, ?_⟩
        have ht2 : rooms.find? (fun q =>
            decide (q.coordinates.x = _ ∧ q.coordinates.y = _)) = some t := ht
        exact List.mem_of_find?_eq_some ht2
    · right
      rw [addDir_coords] at h
      exact h

theorem foldAddDir_none (rooms : List Room) :
    ∀ (dirs : List Direction) (room : Room),
      (∀ dd ∈ dirs, findRoomByDirection rooms room.coordinates dd = none) →
      dirs.foldl (addDirConnection rooms) room = room := by
  intro dirs
  induction dirs with
  | nil => intro room _; rfl
  | cons dd rest ih =>
    intro room h
    rw [List.foldl_cons, addDir_none_eq (h dd (List.mem_cons_self dd rest))]
    exact ih room (fun d2 hd2 => h d2 (List.mem_cons_of_mem _ hd2))

theorem foldAddDir_len_le (rooms : List Room) :
    ∀ (dirs : List Direction) (room : Room),
      (dirs.foldl (addDirConnection rooms) room).connections.length
        ≤ room.connections.length + dirs.length := by
  intro dirs
  induction dirs with
  | nil => intro room; simp
  | cons dd rest ih =>
    intro room
    rw [List.foldl_cons]
    have h1 := ih (addDirConnection rooms room dd)
    have h2 := addDir_len_le rooms room dd
    simp only [List.length_cons]
    omega

theorem foldAddDir_len_lt (rooms : List Room) :
    ∀ (dirs : List Direction) (room : Room),
      (∃ dd ∈ dirs, findRoomByDirection rooms room.coordinates dd = none) →
      (dirs.foldl (addDirConnection rooms) room).connections.length
        < room.connections.length + dirs.length := by
  intro dirs
  induction dirs with
  | nil => intro room h; simp at h
  | cons dd rest ih =>
    intro room ⟨d0, hd0, hnone⟩
    rw [List.foldl_cons]
    rcases List.mem_cons.mp hd0 with heq | hmem
    · subst heq
      rw [addDir_none_eq hnone]
      have := foldAddDir_len_le rooms rest room
      simp only [List.length_cons]
      omega
    · have h1 := ih (addDirConnection rooms room dd)
        ⟨d0, hmem, by rw [addDir_coords]; exact hnone⟩
      have h2 := addDir_len_le rooms room dd
      simp only [List.length_cons]
      omega

/-- Claim C5: the target of a direction entry is the first converted
room at the source coordinates offset one grid step per the fixed
table; every connection the second pass adds points at such a room; a
direction with no room at the offset cell adds nothing and raises
nothing; and when some direction is unresolvable the room ends with
fewer connections than direction entries. -/
theorem c5_connection_inference :
    (∀ (rooms : List Room) (coords : Coordinates) (dir : Direction),
      findRoomByDirection rooms coords dir
        = rooms.find? (fun q =>
            decide (q.coordinates.x = coords.x + specDirDx dir
              ∧ q.coordinates.y = coords.y + specDirDy dir)))
    ∧ (∀ (rooms : List Room) (lr : LegacyRoom) (room : Room),
        ∀ c ∈ (resolveConnections rooms lr room).connections,
          c ∈ room.connections
            ∨ ∃ t, findRoomByDirection rooms room.coordinates c.direction = some t
                ∧ c.targetRoomId = t.id ∧ t ∈ rooms)
    ∧ (∀ (rooms : List Room) (lr : LegacyRoom) (room : Room)
          (dirs : List Direction), lr.connections = some dirs →
        (∀ dd ∈ dirs, findRoomByDirection rooms room.coordinates dd = none) →
        resolveConnections rooms lr room = room)
    ∧ (∀ (rooms : List Room) (lr : LegacyRoom) (room : Room)
          (dirs : List Direction), lr.connections = some dirs →
        room.connections = [] →
        (∃ dd ∈ dirs, findRoomByDirection rooms room.coordinates dd = none) →
        (resolveConnections rooms lr room).connections.length < dirs.length) := by
  refine ⟨?_, ?_, ?_, ?_⟩
  · intro rooms coords dir
    cases dir <;>
      (simp only [findRoomByDirection, specDirDx, specDirDy]
       congr 1
       funext q
       rw [decide_eq_decide]
       omega)
  · intro rooms lr room c hc
    unfold resolveConnections at hc
    split at hc
    · exact foldAddDir_conns rooms _ room c hc
    · exact Or.inl hc
  · intro rooms lr room dirs hdirs hnone
    unfold resolveConnections
    rw [hdirs]
    exact foldAddDir_none rooms dirs room hnone
  · intro rooms lr room dirs hdirs hconns hex
    unfold resolveConnections
    rw [hdirs]
    have := foldAddDir_len_lt rooms dirs room hex
    rw [hconns] at this
    simpa using this

/-- Claim C5 (witness): the offset characterization, the silent drop and
the strict count at concrete rooms. -/
theorem c5_witness :
    findRoomByDirection [roomC5T] roomC5S.coordinates Direction.north
        = [roomC5T].find? (fun q =>
            decide (q.coordinates.x = roomC5S.coordinates.x
                + specDirDx Direction.north
              ∧ q.coordinates.y = roomC5S.coordinates.y
                + specDirDy Direction.north))
      ∧ resolveConnections [roomC5T] legacyRoomC5e roomC5S = roomC5S
      ∧ (resolveConnections [roomC5T] legacyRoomC5 roomC5S).connections.length < 2 :=
  ⟨c5_connection_inference.1 [roomC5T] roomC5S.coordinates Direction.north,
   c5_connection_inference.2.2.1 [roomC5T] legacyRoomC5e roomC5S [.east]
     rfl (by decide),
   c5_connection_inference.2.2.2 [roomC5T] legacyRoomC5 roomC5S [.north, .east]
     rfl (by decide) (by decide)⟩

/-!  Lookup and first-pass facts used by the import-closure claim.  -/

theorem roomLookup_fold_ne_none_of_acc (rid : String) :
    ∀ (l : List Room) (acc : Option Room), acc ≠ none →
      l.foldl (fun acc r => if r.id = rid then some r else acc) acc ≠ none := by
  intro l
  induction l with
  | nil => intro acc h; exact h
  | cons r rest ih =>
    intro acc h
    rw [List.foldl_cons]
    apply ih
    by_cases hr : r.id = rid
    · rw [if_pos hr]; simp
    · rw [if_neg hr]; exact h

theorem roomLookup_ne_none {l : List Room} {rid : String}
    (h : ∃ t ∈ l, t.id = rid) : roomLookup l rid ≠ none := by
  unfold roomLookup
  suffices hgen : ∀ (l2 : List Room) (acc : Option Room),
      ((∃ t ∈ l2, t.id = rid) ∨ acc ≠ none) →
      l2.foldl (fun acc r => if r.id = rid then some r else acc) acc ≠ none by
    exact hgen l none (Or.inl h)
  intro l2
  induction l2 with
  | nil =>
    intro acc hh
    rcases hh with ⟨t, ht, _⟩ | hh
    · simp at ht
    · exact hh
  | cons r rest ih =>
    intro acc hh
    rw [List.foldl_cons]
    by_cases hr : r.id = rid
    · rw [if_pos hr]
      exact roomLookup_fold_ne_none_of_acc rid rest (some r) (by simp)
    · rw [if_neg hr]
      apply ih
      rcases hh with ⟨t, ht, hid⟩ | hh
      · rcases List.mem_cons.mp ht with rfl | hmem
        · exact absurd hid hr
        · exact Or.inl ⟨t, hmem, hid⟩
      · exact Or.inr hh

theorem convertLegacyRoom_conns (n : Nat) (lvl : Int) (lr : LegacyRoom) :
    (convertLegacyRoom n lvl lr).1.connections = [] := rfl

theorem convertLegacyRooms_fold_conns (lvl : Int) :
    ∀ (lrs : List LegacyRoom) (acc : List Room × Nat),
      (∀ r ∈ acc.1, r.connections = []) →
      ∀ r ∈ (lrs.foldl (fun acc lr =>
          (acc.1 ++ [(convertLegacyRoom acc.2 lvl lr).1],
           (convertLegacyRoom acc.2 lvl lr).2)) acc).1,
        r.connections = [] := by
  intro lrs
  induction lrs with
  | nil => intro acc hacc r hr; exact hacc r hr
  | cons lr rest ih =>
    intro acc hacc r hr
    rw [List.foldl_cons] at hr
    refine ih _ ?_ r hr
    intro r2 hr2
    rcases List.mem_append.mp hr2 with h | h
    · exact hacc r2 h
    · rw [List.mem_singleton.mp h]
      exact convertLegacyRoom_conns _ _ _

theorem convertLegacyRooms_conns (n : Nat) (lvl : Int) (lrs : List LegacyRoom) :
    ∀ r ∈ (convertLegacyRooms n lvl lrs).1, r.connections = [] := by
  intro r hr
  exact convertLegacyRooms_fold_conns lvl lrs ([], n) (by simp) r hr

theorem convertLegacyRooms_fold_length (lvl : Int) :
    ∀ (lrs : List LegacyRoom) (acc : List Room × Nat),
      (lrs.foldl (fun acc lr =>
          (acc.1 ++ [(convertLegacyRoom acc.2 lvl lr).1],
           (convertLegacyRoom acc.2 lvl lr).2)) acc).1.length
        = acc.1.length + lrs.length := by
  intro lrs
  induction lrs with
  | nil => intro acc; simp
  | cons lr rest ih =>
    intro acc
    rw [List.foldl_cons, ih]
    simp only [List.length_append, List.length_cons, List.length_nil]
    omega

theorem convertLegacyRooms_length (n : Nat) (lvl : Int) (lrs : List LegacyRoom) :
    (convertLegacyRooms n lvl lrs).1.length = lrs.length := by
  have := convertLegacyRooms_fold_length lvl lrs ([], n)
  simpa using this

theorem resolve_id (rooms : List Room) (lr : LegacyRoom) (room : Room) :
    (resolveConnections rooms lr room).id = room.id := by
  unfold resolveConnections
  split
  · exact foldAddDir_id rooms _ room
  · rfl

theorem convertLegacyDungeon_floors (now : String) (n : Nat) (ld : LegacyDungeon) :
    (convertLegacyDungeon now n ld).1.floors = none := rfl

theorem effectiveRooms_convert (now : String) (n : Nat) (ld : LegacyDungeon) :
    effectiveRooms (convertLegacyDungeon now n ld).1
      = (convertLegacyDungeon now n ld).1.rooms := by
  apply effectiveRooms_flat
  rw [convertLegacyDungeon_floors]
  simp

theorem convertLegacyDungeon_rooms_some (now : String) (n : Nat)
    {ld : LegacyDungeon} {lrs : List LegacyRoom} (h : ld.rooms = some lrs) :
    (convertLegacyDungeon now n ld).1.rooms
      = (lrs.zip (convertLegacyRooms (generateId n).2 (numOr ld.level 1) lrs).1).map
          (fun p => resolveConnections
            (convertLegacyRooms (generateId n).2 (numOr ld.level 1) lrs).1
            p.1 p.2) := by
  simp only [convertLegacyDungeon]
  rw [h]

theorem convertLegacyDungeon_rooms_none (now : String) (n : Nat)
    {ld : LegacyDungeon} (h : ld.rooms = none) :
    (convertLegacyDungeon now n ld).1.rooms = [] := by
  simp only [convertLegacyDungeon]
  rw [h]

theorem convertLegacyDungeon_closed (now : String) (n : Nat) (ld : LegacyDungeon) :
    ∀ r ∈ (convertLegacyDungeon now n ld).1.rooms,
      ∀ c ∈ r.connections,
        ∃ t2 ∈ (convertLegacyDungeon now n ld).1.rooms,
          t2.id = c.targetRoomId := by
  intro r hr c hc
  cases hld : ld.rooms with
  | none =>
    rw [convertLegacyDungeon_rooms_none now n hld] at hr
    simp at hr
  | some lrs =>
    rw [convertLegacyDungeon_rooms_some now n hld] at hr
    rw [List.mem_map] at hr
    obtain ⟨p, hp, rfl⟩ := hr
    have hp2 : p.2 ∈ (convertLegacyRooms (generateId n).2 (numOr ld.level 1) lrs).1 :=
      (List.of_mem_zip hp).2
    have hconns : p.2.connections = [] :=
      convertLegacyRooms_conns _ _ _ p.2 hp2
    have hc2 : c ∈ p.2.connections
        ∨ ∃ t, findRoomByDirection
              (convertLegacyRooms (generateId n).2 (numOr ld.level 1) lrs).1
              p.2.coordinates c.direction = some t
            ∧ c.targetRoomId = t.id
            ∧ t ∈ (convertLegacyRooms (generateId n).2 (numOr ld.level 1) lrs).1 := by
      unfold resolveConnections at hc
      split at hc
      · exact foldAddDir_conns _ _ p.2 c hc
      · exact Or.inl hc
    rcases hc2 with h | ⟨t, _, hct, htmem⟩
    · rw [hconns] at h
      simp at h
    · have hlen : (convertLegacyRooms (generateId n).2 (numOr ld.level 1) lrs).1.length
          ≤ lrs.length := le_of_eq (convertLegacyRooms_length _ _ _)
      have hsnd := List.map_snd_zip lrs
        (convertLegacyRooms (generateId n).2 (numOr ld.level 1) lrs).1 hlen
      have htmem2 : t ∈ (lrs.zip
          (convertLegacyRooms (generateId n).2 (numOr ld.level 1) lrs).1).map
            Prod.snd := by
        rw [hsnd]
        exact htmem
      rw [List.mem_map] at htmem2
      obtain ⟨q, hq, hqt⟩ := htmem2
      refine ⟨resolveConnections
          (convertLegacyRooms (generateId n).2 (numOr ld.level 1) lrs).1 q.1 q.2,
        ?_, ?_⟩
      · rw [convertLegacyDungeon_rooms_some now n hld]
        exact List.mem_map_of_mem _ hq
      · rw [resolve_id, hqt, hct]

theorem convertLegacyDungeon_no_conn_missing (now : String) (n : Nat)
    (ld : LegacyDungeon) :
    ∀ e ∈ (validateDungeon (convertLegacyDungeon now n ld).1).errors,
      msgTag e ≠ ['C', 'o', 'n'] := by
  intro e he
  by_cases hne : effectiveRooms (convertLegacyDungeon now n ld).1 = []
  · have hf : ¬ 0 < (((convertLegacyDungeon now n ld).1).floors.getD []).length := by
      rw [convertLegacyDungeon_floors]
      simp
    have hrooms : ((convertLegacyDungeon now n ld).1).rooms = [] := by
      rw [← effectiveRooms_convert]
      exact hne
    rw [validateDungeon_none hf (by rw [hrooms]; simp)] at he
    simp only [List.mem_singleton] at he
    rw [he, msgTag_noRoomsError]
    decide
  · obtain ⟨pre, hdecomp, hpre⟩ := validateDungeon_errors_decomp hne
    rw [hdecomp] at he
    rcases List.mem_append.mp he with hin | hin
    · obtain ⟨dep, rfl⟩ := hpre e hin
      rw [msgTag_depthError]
      decide
    · unfold mainChecks at hin
      rcases List.mem_append.mp hin with hin | hmon
      · rcases List.mem_append.mp hin with hin | hconn
        · rcases List.mem_append.mp hin with hin | hcoord
          · rcases List.mem_append.mp hin with hent | hboss
            · rw [mem_entranceErrors hent, msgTag_entranceError]
              decide
            · rw [mem_bossErrors hboss, msgTag_bossError]
              decide
          · obtain ⟨r, _, rfl⟩ := mem_coordErrors hcoord
            rw [msgTag_coordError]
            decide
        · obtain ⟨r2, hr2, cn, hcn, hcc⟩ := mem_connectionErrors hconn
          rcases connErrsForConn_cases hcc with ⟨hlnone, rfl⟩ | ⟨t, _, rfl⟩
          · exfalso
            have hr2b : r2 ∈ ((convertLegacyDungeon now n ld).1).rooms := by
              rw [← effectiveRooms_convert]
              exact hr2
            have hclosed :=
              convertLegacyDungeon_closed now n ld r2 hr2b cn hcn
            apply roomLookup_ne_none (l := effectiveRooms (convertLegacyDungeon now n ld).1)
              ?_ hlnone
            rw [effectiveRooms_convert]
            exact hclosed
          · rw [msgTag_recipError]
            decide
      · obtain ⟨r2, _, m2, _, _, rfl⟩ := mem_monsterLevelErrors hmon
        rw [msgTag_monsterLevelError]
        decide

theorem convertLegacyFormat_mem (now : String) :
    ∀ (ds : List LegacyDungeon) (acc : List Dungeon × Nat) (d : Dungeon),
      d ∈ (ds.foldl (fun acc ld =>
        (acc.1 ++ [(convertLegacyDungeon now acc.2 ld).1],
         (convertLegacyDungeon now acc.2 ld).2)) acc).1 →
      d ∈ acc.1 ∨ ∃ n2 ld2, d = (convertLegacyDungeon now n2 ld2).1 := by
  intro ds
  induction ds with
  | nil => intro acc d h; exact Or.inl h
  | cons ld rest ih =>
    intro acc d h
    rw [List.foldl_cons] at h
    rcases ih _ d h with h2 | h2
    · rcases List.mem_append.mp h2 with h3 | h3
      · exact Or.inl h3
      · right
        exact ⟨acc.2, ld, List.mem_singleton.mp h3⟩
    · exact Or.inr h2

/-- Claim C9: every dungeon the importer returns is internally closed:
each connection targets the id of a room of the same rooms list, the
validator lookup over the effective set cannot miss, and consequently no
connection-existence error (message opening Con) ever appears when
validating imported output. -/
theorem c9_import_closed (now : String) (n0 : Nat) (input : LegacyInput) :
    ∀ d ∈ (convertLegacyFormat now n0 input).1,
      (∀ r ∈ d.rooms, ∀ c ∈ r.connections,
        (∃ t ∈ d.rooms, t.id = c.targetRoomId)
          ∧ roomLookup (effectiveRooms d) c.targetRoomId ≠ none)
      ∧ (∀ e ∈ (validateDungeon d).errors, msgTag e ≠ ['C', 'o', 'n']) := by
  intro d hd
  have hsrc : ∃ n2 ld2, d = (convertLegacyDungeon now n2 ld2).1 := by
    cases input with
    | noDungeons => simp [convertLegacyFormat] at hd
    | dungeonsNotArray => simp [convertLegacyFormat] at hd
    | dungeonsArr ds =>
      rcases convertLegacyFormat_mem now ds ([], n0) d hd with h | h
      · simp at h
      · exact h
  obtain ⟨n2, ld2, rfl⟩ := hsrc
  constructor
  · intro r hr c hc
    have hclosed := convertLegacyDungeon_closed now n2 ld2 r hr c hc
    refine ⟨hclosed, ?_⟩
    rw [effectiveRooms_convert]
    exact roomLookup_ne_none hclosed
  · exact convertLegacyDungeon_no_conn_missing now n2 ld2

/-- Claim C9 (witness): the closure theorem applied to the imported
two-room dungeon. -/
theorem c9_witness : roomLookup (effectiveRooms c9d) c9c.targetRoomId ≠ none :=
  ((c9_import_closed "t" 0 legacyC4 c9d (by decide)).1 c9r (by decide)
    c9c (by decide)).2
